import Mathlib

/-!
Verification of the local data layer of a client-side expense tracker
(`src/client-react/src/lib/idb.js` and the form handler in
`src/client-react/src/pages/AddCostPage.jsx`).

The JavaScript functions are shallowly embedded: IndexedDB state becomes an
explicit `DbState` record threaded through every operation, promises become
`Except` results paired with the post-state, the network `fetch` becomes a
function argument from URLs to responses, and JavaScript numbers become
`JsNum` (an exact rational for the finite case, plus NaN and the two
infinities so that the untyped arithmetic of the source — division by an
absent rate, NaN propagation — is representable).
-/

namespace CostManager

/-- A JavaScript number: a finite value (kept exact as a rational, per the
spec's "exact arithmetic in place of floating point"), NaN, or ±Infinity. -/
inductive JsNum where
  | num (q : ℚ)
  | nan
  | inf
  | negInf
deriving DecidableEq, Repr

namespace JsNum

/-- JavaScript `+` on numbers. -/
def add : JsNum → JsNum → JsNum
  | nan, _ => nan
  | _, nan => nan
  | num a, num b => num (a + b)
  | inf, negInf => nan
  | negInf, inf => nan
  | inf, _ => inf
  | _, inf => inf
  | negInf, _ => negInf
  | _, negInf => negInf

/-- JavaScript `*` on numbers. -/
def mul : JsNum → JsNum → JsNum
  | nan, _ => nan
  | _, nan => nan
  | num a, num b => num (a * b)
  | inf, num b => if b = 0 then nan else if 0 < b then inf else negInf
  | num a, inf => if a = 0 then nan else if 0 < a then inf else negInf
  | negInf, num b => if b = 0 then nan else if 0 < b then negInf else inf
  | num a, negInf => if a = 0 then nan else if 0 < a then negInf else inf
  | inf, inf => inf
  | inf, negInf => negInf
  | negInf, inf => negInf
  | negInf, negInf => inf

/-- JavaScript `/` on numbers (positive zero only: the model has no `-0`). -/
def div : JsNum → JsNum → JsNum
  | nan, _ => nan
  | _, nan => nan
  | num a, num b =>
      if b = 0 then (if a = 0 then nan else if 0 < a then inf else negInf)
      else num (a / b)
  | num _, inf => num 0
  | num _, negInf => num 0
  | inf, num b => if 0 ≤ b then inf else negInf
  | negInf, num b => if 0 ≤ b then negInf else inf
  | inf, _ => nan
  | negInf, _ => nan

/-- `Number.isFinite`. -/
def isFinite : JsNum → Bool
  | num _ => true
  | _ => false

/-- JavaScript truthiness of a number: `0` and `NaN` are falsy. -/
def truthy : JsNum → Bool
  | num q => q ≠ 0
  | nan => false
  | _ => true

end JsNum

/-- Rounding to 2 decimal places as `Number(x.toFixed(2))` does on a finite
value: nearest hundredth, ties toward `+∞` (ECMA-262 picks the larger
candidate digit string). `round` on `ℚ` is `⌊x + 1/2⌋`, exactly that rule. -/
def round2 (q : ℚ) : ℚ := (round (q * 100) : ℤ) / 100

/-- `Number(x.toFixed(2))` on a JavaScript number: rounds the finite case,
and maps NaN and the infinities to themselves (their digit strings parse
back to the same value). -/
def jsToFixed2 : JsNum → JsNum
  | JsNum.num q => JsNum.num (round2 q)
  | n => n

/-- A rates table: the JSON document (or default object) mapping currency
codes to numeric rates. JSON numbers are finite, hence exact rationals. -/
def RatesTable := List (String × ℚ)

/-- `rates[cur]` as used in arithmetic: an absent property reads as
`undefined`, which `ToNumber` turns into NaN inside `/` and `*`. -/
def ratesGet (rates : RatesTable) (cur : String) : JsNum :=
  match List.lookup cur rates with
  | some r => JsNum.num r
  | none => JsNum.nan

/-- `defaultRates()` from idb.js. -/
def defaultRates : RatesTable :=
  [("USD", 1), ("GBP", 6/10), ("EURO", 7/10), ("ILS", 34/10)]

/-- `convert(sum, fromCur, toCur, rates)` from idb.js:
`usd = sum / rates[fromCur]; return usd * rates[toCur]`. -/
def convert (sum : JsNum) (fromCur toCur : String) (rates : RatesTable) : JsNum :=
  JsNum.mul (JsNum.div sum (ratesGet rates fromCur)) (ratesGet rates toCur)

/-- One persisted record of the `costs` object store (keyPath `id`,
auto-increment; `year`/`month`/`day` stamped by `addCost`). -/
structure CostRecord where
  id : Nat
  sum : ℚ
  currency : String
  category : String
  description : String
  year : Int
  month : Int
  day : Int
deriving DecidableEq, Repr

/-- The IndexedDB state visible to the data layer: whether `openCostsDB`
has completed (`_db !== null`), the `costs` store in insertion order, the
`settings` store as a keyed list, and the next auto-increment key. -/
structure DbState where
  isOpen : Bool
  costs : List CostRecord
  settings : List (String × String)
  nextId : Nat
deriving DecidableEq, Repr

/-- The typed failures the layer can signal. -/
inductive DbError where
  | notOpen
  | fetchFailed
  | parseError
deriving DecidableEq, Repr

/-- An HTTP response as `fetchRates` consumes it: `ok` status and a body
that parses to a rates table (or fails to parse). -/
structure HttpResponse where
  ok : Bool
  body : Option RatesTable

/-- The network: what a single `fetch(url)` returns for each URL. -/
def Http := String → HttpResponse

/-- The stamped calendar components of `new Date()` at the call instant
(`getFullYear()`, `getMonth()+1`, `getDate()`). -/
structure DateParts where
  year : Int
  month : Int
  day : Int
deriving DecidableEq, Repr

/-- `readRatesUrl`: `settingsStore.get("ratesUrl")`, yielding the stored
`value` if the record exists and `null` otherwise. -/
def readRatesUrl (st : DbState) : Option String :=
  List.lookup "ratesUrl" st.settings

/-- `fetchRates(ratesUrl)` from idb.js: start from the default table; if
`ratesUrl` is truthy (non-null and non-empty), issue one GET, require a
successful status, and parse the body as the table. -/
def fetchRates (http : Http) (ratesUrl : Option String) : Except DbError RatesTable :=
  match ratesUrl with
  | none => Except.ok defaultRates
  | some url =>
      if url = "" then Except.ok defaultRates
      else
        let response := http url
        if response.ok then
          match response.body with
          | some r => Except.ok r
          | none => Except.error DbError.parseError
        else Except.error DbError.fetchFailed

/-- The caller-facing input of `addCost` (the four fields the form sends). -/
structure CostInput where
  sum : ℚ
  currency : String
  category : String
  description : String
deriving DecidableEq, Repr

/-- The value `addCost` resolves with: the four input fields plus a `Date`
object holding only the stamped day. This is the complete shape — the
record's `id`, `year` and `month` are not part of it. -/
structure AddedCost where
  sum : ℚ
  currency : String
  category : String
  description : String
  dateDay : Int
deriving DecidableEq, Repr

/-- `addCost(cost)` from idb.js: reject when the DB is not open, stamp the
date parts, append the record to `costs` (auto-increment assigns the id),
and resolve with the four fields plus `Date: { day }`. No validation. -/
def addCost (st : DbState) (now : DateParts) (cost : CostInput) :
    Except DbError AddedCost × DbState :=
  if st.isOpen then
    let record : CostRecord :=
      { id := st.nextId, sum := cost.sum, currency := cost.currency,
        category := cost.category, description := cost.description,
        year := now.year, month := now.month, day := now.day }
    (Except.ok
      { sum := cost.sum, currency := cost.currency, category := cost.category,
        description := cost.description, dateDay := now.day },
      { st with costs := st.costs ++ [record], nextId := st.nextId + 1 })
  else (Except.error DbError.notOpen, st)

/-- `store.put({key: "ratesUrl", value: url})` on a keyPath-`key` store:
replace the entry with that key in place, or append a new one. -/
def settingsPut (settings : List (String × String)) (k v : String) :
    List (String × String) :=
  match settings with
  | [] => [(k, v)]
  | (k', v') :: rest =>
      if k' = k then (k, v) :: rest else (k', v') :: settingsPut rest k v

/-- `setRatesUrl(url)` from idb.js. -/
def setRatesUrl (st : DbState) (url : String) : Except DbError Bool × DbState :=
  if st.isOpen then
    (Except.ok true, { st with settings := settingsPut st.settings "ratesUrl" url })
  else (Except.error DbError.notOpen, st)

/-- One element of a report's `costs` array: the record's fields with the
converted sum, the requested currency, and `Date: { day }`. -/
structure ReportCost where
  sum : JsNum
  currency : String
  category : String
  description : String
  dateDay : Int
deriving DecidableEq, Repr

/-- A report's `total` object. -/
structure ReportTotal where
  currency : String
  total : JsNum
deriving DecidableEq, Repr

/-- The value `getReport` resolves with. -/
structure Report where
  year : Int
  month : Int
  costs : List ReportCost
  total : ReportTotal
deriving DecidableEq, Repr

/-- The cursor scan of `getReport`: every record with the requested year
and month (JavaScript `===` on both), in store order. -/
def matchingCosts (st : DbState) (year month : Int) : List CostRecord :=
  st.costs.filter (fun r => r.year == year && r.month == month)

/-- `getReport(year, month, currency)` from idb.js: scan `costs`, then
resolve rates (settings read + optional fetch), convert each matched sum
into the target currency rounding to 2 decimals, sum the rounded values
and round the total again. The readonly transaction leaves the state as
it was. -/
def getReport (st : DbState) (http : Http) (year month : Int)
    (currency : String) : Except DbError Report × DbState :=
  if st.isOpen then
    let rawCosts := (matchingCosts st year month).map (fun r =>
      { sum := JsNum.num r.sum, currency := r.currency, category := r.category,
        description := r.description, dateDay := r.day : ReportCost })
    match fetchRates http (readRatesUrl st) with
    | Except.error e => (Except.error e, st)
    | Except.ok rates =>
        let convertedCosts := rawCosts.map (fun c =>
          { c with
            sum := jsToFixed2 (convert c.sum c.currency currency rates)
            currency := currency })
        let total := convertedCosts.foldl (fun acc c => JsNum.add acc c.sum)
          (JsNum.num 0)
        (Except.ok
          { year := year, month := month, costs := convertedCosts,
            total := { currency := currency, total := jsToFixed2 total } }, st)
  else (Except.error DbError.notOpen, st)

/-- One slice of the pie-chart data. -/
structure PieEntry where
  name : String
  value : JsNum
deriving DecidableEq, Repr

/-- `map.get(k) || 0` on a JavaScript `Map` of numbers: an absent key reads
as `undefined` (falsy), and a falsy stored value (0 or NaN) also yields 0. -/
def jsGetOr0 (o : Option JsNum) : JsNum :=
  match o with
  | none => JsNum.num 0
  | some v => if v.truthy then v else JsNum.num 0

/-- `Map.prototype.set`: update an existing key in place (keeping its
insertion position) or append a new one. -/
def mapSet (m : List (String × JsNum)) (k : String) (v : JsNum) :
    List (String × JsNum) :=
  match m with
  | [] => [(k, v)]
  | (k', v') :: rest =>
      if k' = k then (k, v) :: rest else (k', v') :: mapSet rest k v

/-- One iteration of the grouping loop of `getPieChartData`:
`map.set(c.category, (map.get(c.category) || 0) + c.sum)`. -/
def pieStep (m : List (String × JsNum)) (c : ReportCost) : List (String × JsNum) :=
  mapSet m c.category (JsNum.add (jsGetOr0 (List.lookup c.category m)) c.sum)

/-- The grouping loop of `getPieChartData` over the report's converted
costs, starting from an empty `Map`. -/
def pieFold (costs : List ReportCost) : List (String × JsNum) :=
  costs.foldl pieStep []

/-- `getPieChartData(year, month, currency)` from idb.js: take the report,
group its converted costs by category in a `Map`, and emit
`{name, value: Number(value.toFixed(2))}` in the map's insertion order. -/
def getPieChartData (st : DbState) (http : Http) (year month : Int)
    (currency : String) : Except DbError (List PieEntry) × DbState :=
  match getReport st http year month currency with
  | (Except.error e, st') => (Except.error e, st')
  | (Except.ok report, st') =>
      (Except.ok ((pieFold report.costs).map (fun p =>
        { name := p.1, value := jsToFixed2 p.2 : PieEntry })), st')

/-- One bar of the bar-chart data. -/
structure BarEntry where
  month : Int
  total : JsNum
deriving DecidableEq, Repr

/-- The raw item kept per month bucket: `{ sum, currency }`. -/
structure RawItem where
  sum : ℚ
  currency : String
deriving DecidableEq, Repr

/-- One iteration of the `getBarChartData` cursor: a record with the
requested year and `month` between 1 and 12 is pushed onto bucket
`month - 1`; anything else is skipped. -/
def barStep (year : Int) (acc : List (List RawItem)) (r : CostRecord) :
    List (List RawItem) :=
  if r.year == year && 1 ≤ r.month && r.month ≤ 12 then
    acc.set (r.month - 1).toNat
      ((acc.getD (r.month - 1).toNat []) ++ [{ sum := r.sum, currency := r.currency }])
  else acc

/-- The cursor loop of `getBarChartData`: the scan over 12 initially empty
month buckets. -/
def barBuckets (costs : List CostRecord) (year : Int) : List (List RawItem) :=
  costs.foldl (barStep year) (List.replicate 12 [])

/-- `getBarChartData(year, currency)` from idb.js: one scan into 12 month
buckets, one rates resolution, then for each month in order sum the
bucket's converted items and round the sum to 2 decimals. -/
def getBarChartData (st : DbState) (http : Http) (year : Int)
    (currency : String) : Except DbError (List BarEntry) × DbState :=
  if st.isOpen then
    let perMonth := barBuckets st.costs year
    match fetchRates http (readRatesUrl st) with
    | Except.error e => (Except.error e, st)
    | Except.ok rates =>
        let data := (List.range 12).map (fun i =>
          let items := perMonth.getD i []
          let total := items.foldl
            (fun acc it => JsNum.add acc (convert (JsNum.num it.sum) it.currency currency rates))
            (JsNum.num 0)
          { month := (i : Int) + 1, total := jsToFixed2 total : BarEntry })
        (Except.ok data, st)
  else (Except.error DbError.notOpen, st)

/-- The outcome `handleSubmit` reports through the status banner. -/
inductive SubmitStatus where
  | dbNotReady
  | validationError
  | success (v : AddedCost)
  | dbFailure (e : DbError)
deriving DecidableEq, Repr

/-- `handleSubmit` from AddCostPage.jsx, after `Number(sum)` has produced
`numSum`: refuse when the DB handle is not ready; refuse with the
validation message when `!Number.isFinite(numSum) || numSum <= 0`;
otherwise call `addCost` with the four fields. -/
def handleSubmit (dbReady : Bool) (st : DbState) (now : DateParts)
    (numSum : JsNum) (currency category description : String) :
    SubmitStatus × DbState :=
  if dbReady then
    match numSum with
    | JsNum.num q =>
        if q ≤ 0 then (SubmitStatus.validationError, st)
        else
          match addCost st now
            { sum := q, currency := currency, category := category,
              description := description } with
          | (Except.ok v, st') => (SubmitStatus.success v, st')
          | (Except.error e, st') => (SubmitStatus.dbFailure e, st')
    | _ => (SubmitStatus.validationError, st)
  else (SubmitStatus.dbNotReady, st)

/-! ## Derived forms used to state the claim theorems -/

/-- Summation as the `total += c.sum` loops perform it. -/
def jsSum (l : List JsNum) : JsNum := l.foldl JsNum.add (JsNum.num 0)

/-- The `costs` array a successful report carries, as a function of the
matched records: each sum converted into the target currency and rounded
to 2 decimals, `currency` replaced, `Date: { day }` kept. -/
def reportCosts (recs : List CostRecord) (currency : String)
    (rates : RatesTable) : List ReportCost :=
  recs.map (fun r =>
    { sum := jsToFixed2 (convert (JsNum.num r.sum) r.currency currency rates),
      currency := currency, category := r.category,
      description := r.description, dateDay := r.day })

/-- First-seen deduplication: the insertion order of a JavaScript `Map`
keyed by these strings. -/
def firstSeen (ks : List String) : List String :=
  ks.foldl (fun acc k => if k ∈ acc then acc else acc ++ [k]) []

/-- Exact-rational image of the pie grouping loop: add `v` onto the entry
of `k` (insertion position kept), or append `(k, v)`. -/
def upsertAddQ (m : List (String × ℚ)) (k : String) (v : ℚ) :
    List (String × ℚ) :=
  match m with
  | [] => [(k, v)]
  | (k', v') :: rest =>
      if k' = k then (k, v' + v) :: rest else (k', v') :: upsertAddQ rest k v

/-- Exact-rational grouping of labelled amounts, in first-seen key order. -/
def groupQ (acc : List (String × ℚ)) : List (String × ℚ) → List (String × ℚ)
  | [] => acc
  | (k, v) :: rest => groupQ (upsertAddQ acc k v) rest

/-- The finite value of a JavaScript number (0 on NaN and the infinities;
only ever applied under a finiteness hypothesis). -/
def sumQ : JsNum → ℚ
  | JsNum.num q => q
  | _ => 0

/-- View an exact-rational keyed entry as the finite JavaScript entry it
models. -/
def liftPair (p : String × ℚ) : String × JsNum := (p.1, JsNum.num p.2)

/-- A rational that is a whole number of hundredths — the image of
rounding to 2 decimal places. -/
def isCent (q : ℚ) : Prop := ∃ k : ℤ, q = (k : ℚ) / 100

/-- A network stub for closed statements; never actually consulted because
the states used with it have no `ratesUrl` configured. -/
def httpUnused : Http := fun _ => { ok := false, body := none }

/-- A network where every GET comes back with a non-success status. -/
def http404 : Http := fun _ => { ok := false, body := none }

/-- An open store with nothing recorded and nothing configured. -/
def emptyOpenState : DbState :=
  { isOpen := true, costs := [], settings := [], nextId := 1 }

/-- Twelve all-zero bars, months 1 through 12. -/
def zeroBarData : List BarEntry :=
  (List.range 12).map (fun i : Nat => { month := (i : Int) + 1, total := JsNum.num 0 })

/-- The month-in-range test of the bar-chart cursor. -/
def inMonthRange (r : CostRecord) : Bool := 1 ≤ r.month && r.month ≤ 12

/-- The store of the two-record report scenario: a 100 USD lunch and a
50 GBP dinner in the same month, no rates URL configured. -/
def scenarioState (y m : Int) : DbState :=
  { isOpen := true,
    costs := [
      { id := 1, sum := 100, currency := "USD", category := "FOOD",
        description := "lunch", year := y, month := m, day := 10 },
      { id := 2, sum := 50, currency := "GBP", category := "FOOD",
        description := "dinner", year := y, month := m, day := 11 }],
    settings := [], nextId := 3 }

/-! ## NaN propagation through the JavaScript arithmetic -/

theorem JsNum.mul_nan (x : JsNum) : JsNum.mul x JsNum.nan = JsNum.nan := by
  cases x <;> rfl

theorem JsNum.nan_mul (x : JsNum) : JsNum.mul JsNum.nan x = JsNum.nan := by
  cases x <;> rfl

theorem JsNum.div_nan (x : JsNum) : JsNum.div x JsNum.nan = JsNum.nan := by
  cases x <;> rfl

/-- How a successful `getReport` decomposes: when the store is open and
rate resolution yields `rates`, the result is built from the matched
records by `reportCosts`, with the total the re-rounded `jsSum` of the
per-item sums, and the state is untouched. -/
theorem getReport_ok (st : DbState) (http : Http) (y m : Int) (cur : String)
    (rates : RatesTable) (ho : st.isOpen = true)
    (hr : fetchRates http (readRatesUrl st) = Except.ok rates) :
    getReport st http y m cur =
      (Except.ok
        { year := y, month := m,
          costs := reportCosts (matchingCosts st y m) cur rates,
          total :=
            { currency := cur,
              total := jsToFixed2 (jsSum ((reportCosts (matchingCosts st y m)
                          cur rates).map ReportCost.sum)) } }, st) := by
  unfold getReport
  rw [ho, if_pos rfl, hr]
  simp only [reportCosts, jsSum, List.map_map, List.foldl_map]
  rfl

/-! ## Claim theorems -/

/-- C3 counterexample: `convert` with a currency code absent from the rates
table does not fail — it returns NaN, and `getReport` on a store holding a
record in an unknown currency resolves successfully with NaN sums instead
of failing with a lookup error. -/
theorem convert_missing_currency_no_error :
    convert (JsNum.num 50) "XYZ" "USD" defaultRates = JsNum.nan ∧
    (getReport
      { isOpen := true,
        costs := [{ id := 1, sum := 50, currency := "XYZ", category := "FOOD",
                    description := "x", year := 2025, month := 5, day := 3 }],
        settings := [], nextId := 2 } httpUnused 2025 5 "USD").1 =
      Except.ok
        { year := 2025, month := 5,
          costs := [{ sum := JsNum.nan, currency := "USD", category := "FOOD",
                      description := "x", dateDay := 3 }],
          total := { currency := "USD", total := JsNum.nan } } := by
  constructor <;> rfl

/-- C3 amended: if `fromCurrency` or `toCurrency` is absent from the rates
table, `convert` returns NaN (the undefined rate poisons the arithmetic)
rather than signaling an error. -/
theorem convert_missing_currency_nan (sum : JsNum) (rates : RatesTable)
    (fromCur toCur : String)
    (h : List.lookup fromCur rates = none ∨ List.lookup toCur rates = none) :
    convert sum fromCur toCur rates = JsNum.nan := by
  rcases h with h | h
  · unfold convert ratesGet
    rw [h]
    rw [JsNum.div_nan, JsNum.nan_mul]
  · unfold convert ratesGet
    rw [h]
    rw [JsNum.mul_nan]

/-- C3 witness: the amended statement at a concrete absent currency. -/
theorem convert_missing_currency_nan_witness :
    convert (JsNum.num 100) "XYZ" "USD" defaultRates = JsNum.nan :=
  convert_missing_currency_nan (JsNum.num 100) defaultRates "XYZ" "USD"
    (Or.inl rfl)

/-- C1: with a 100 USD and a 50 GBP cost recorded for the same month and
the default rates in force, `getReport(y, m, "USD")` returns converted
sums 100.00 and 83.33 (= round2(50/0.6)) and a total of 183.33. -/
theorem getReport_two_item_scenario (y m : Int) (http : Http) :
    (getReport (scenarioState y m) http y m "USD").1 =
      Except.ok
        { year := y, month := m,
          costs := [
            { sum := JsNum.num 100, currency := "USD", category := "FOOD",
              description := "lunch", dateDay := 10 },
            { sum := JsNum.num (8333/100), currency := "USD", category := "FOOD",
              description := "dinner", dateDay := 11 }],
          total := { currency := "USD", total := JsNum.num (18333/100) } } := by
  have hfetch : fetchRates http (readRatesUrl (scenarioState y m)) =
      Except.ok defaultRates := rfl
  rw [getReport_ok (scenarioState y m) http y m "USD" defaultRates rfl hfetch]
  have hm : matchingCosts (scenarioState y m) y m = (scenarioState y m).costs := by
    simp [matchingCosts, scenarioState]
  have h1 : jsToFixed2 (convert (JsNum.num 100) "USD" "USD" defaultRates) =
      JsNum.num 100 := by
    show jsToFixed2 (JsNum.mul (JsNum.div (JsNum.num 100) (JsNum.num 1))
      (JsNum.num 1)) = _
    norm_num [JsNum.div, JsNum.mul, jsToFixed2, round2, round_eq]
  have h2 : jsToFixed2 (convert (JsNum.num 50) "GBP" "USD" defaultRates) =
      JsNum.num (8333/100) := by
    show jsToFixed2 (JsNum.mul (JsNum.div (JsNum.num 50) (JsNum.num (6/10)))
      (JsNum.num 1)) = _
    norm_num [JsNum.div, JsNum.mul, jsToFixed2, round2, round_eq]
  rw [hm]
  simp only [scenarioState, reportCosts, List.map_cons, List.map_nil, h1, h2]
  norm_num [jsSum, JsNum.add, jsToFixed2, round2, round_eq]

/-- C8: converting an amount to the same currency is the identity whenever
that currency has a nonzero entry in the rates table (exact arithmetic). -/
theorem convert_same_currency_id (x : ℚ) (A : String) (rates : RatesTable)
    (r : ℚ) (hA : List.lookup A rates = some r) (hr : r ≠ 0) :
    convert (JsNum.num x) A A rates = JsNum.num x := by
  unfold convert ratesGet
  rw [hA]
  simp only [JsNum.div, JsNum.mul, if_neg hr]
  rw [div_mul_cancel₀ x hr]

/-- C8 witness: identity conversion at a concrete input. -/
theorem convert_same_currency_id_witness :
    convert (JsNum.num 7) "GBP" "GBP" defaultRates = JsNum.num 7 :=
  convert_same_currency_id 7 "GBP" defaultRates (6/10) rfl (by norm_num)

/-- C2 counterexample: `addCost` itself performs no validation — with the
store open it accepts a negative sum, resolves successfully, and persists
the invalid record. -/
theorem addCost_accepts_invalid_sum :
    (addCost { isOpen := true, costs := [], settings := [], nextId := 1 }
        { year := 2025, month := 5, day := 3 }
        { sum := -5, currency := "USD", category := "FOOD",
          description := "d" }).1 =
      Except.ok { sum := -5, currency := "USD", category := "FOOD",
                  description := "d", dateDay := 3 } ∧
    ((addCost { isOpen := true, costs := [], settings := [], nextId := 1 }
        { year := 2025, month := 5, day := 3 }
        { sum := -5, currency := "USD", category := "FOOD",
          description := "d" }).2).costs =
      [{ id := 1, sum := -5, currency := "USD", category := "FOOD",
         description := "d", year := 2025, month := 5, day := 3 }] := by
  constructor <;> rfl

/-- C2 amended: the finite-and-positive check on `sum` is performed by the
form's `handleSubmit`, not by `addCost`. With the DB handle ready,
`handleSubmit` rejects every non-finite or non-positive sum with a
validation error and adds nothing; for a finite positive sum it calls
`addCost`, which persists exactly one new record and resolves with it. -/
theorem handleSubmit_validates_sum (st : DbState) (now : DateParts)
    (numSum : JsNum) (cur cat desc : String) :
    ((¬ ∃ q : ℚ, numSum = JsNum.num q ∧ 0 < q) →
      handleSubmit true st now numSum cur cat desc =
        (SubmitStatus.validationError, st)) ∧
    (∀ q : ℚ, numSum = JsNum.num q → 0 < q → st.isOpen = true →
      handleSubmit true st now numSum cur cat desc =
        (SubmitStatus.success
          { sum := q, currency := cur, category := cat, description := desc,
            dateDay := now.day },
         { st with
            costs := st.costs ++
              [{ id := st.nextId, sum := q, currency := cur, category := cat,
                 description := desc, year := now.year, month := now.month,
                 day := now.day }],
            nextId := st.nextId + 1 })) := by
  constructor
  · intro h
    cases numSum with
    | num q =>
        have hq : q ≤ 0 := by
          by_contra hq
          exact h ⟨q, rfl, lt_of_not_le hq⟩
        simp [handleSubmit, hq]
    | nan => rfl
    | inf => rfl
    | negInf => rfl
  · intro q hq hpos hopen
    subst hq
    simp [handleSubmit, addCost, hopen, not_le.mpr hpos]

/-- C2 witness: a NaN sum is rejected with no state change, and a sum of
10 is persisted as one record. -/
theorem handleSubmit_validates_sum_witness :
    handleSubmit true { isOpen := true, costs := [], settings := [], nextId := 1 }
        { year := 2025, month := 5, day := 3 } JsNum.nan "USD" "FOOD" "d" =
      (SubmitStatus.validationError,
       { isOpen := true, costs := [], settings := [], nextId := 1 }) ∧
    handleSubmit true { isOpen := true, costs := [], settings := [], nextId := 1 }
        { year := 2025, month := 5, day := 3 } (JsNum.num 10) "USD" "FOOD" "d" =
      (SubmitStatus.success
        { sum := 10, currency := "USD", category := "FOOD", description := "d",
          dateDay := 3 },
       { isOpen := true,
         costs := [{ id := 1, sum := 10, currency := "USD", category := "FOOD",
                     description := "d", year := 2025, month := 5, day := 3 }],
         settings := [], nextId := 2 }) :=
  ⟨(handleSubmit_validates_sum _ _ JsNum.nan "USD" "FOOD" "d").1
      (by rintro ⟨q, hq, -⟩; exact JsNum.noConfusion hq),
   (handleSubmit_validates_sum _ _ (JsNum.num 10) "USD" "FOOD" "d").2
      10 rfl (by norm_num) rfl⟩

/-- C4: with no `ratesUrl` configured, rate resolution yields exactly the
default table; with a truthy `ratesUrl` configured and the GET coming back
non-success, `getReport`, `getPieChartData` and `getBarChartData` all fail
with the rates-fetch error — no fallback to the default table. -/
theorem rates_resolution (st : DbState) (http : Http) (y m : Int)
    (cur url : String) :
    (readRatesUrl st = none →
      fetchRates http (readRatesUrl st) = Except.ok defaultRates) ∧
    (readRatesUrl st = some url → url ≠ "" → (http url).ok = false →
      st.isOpen = true →
      fetchRates http (readRatesUrl st) = Except.error DbError.fetchFailed ∧
      (getReport st http y m cur).1 = Except.error DbError.fetchFailed ∧
      (getPieChartData st http y m cur).1 = Except.error DbError.fetchFailed ∧
      (getBarChartData st http y cur).1 = Except.error DbError.fetchFailed) := by
  constructor
  · intro h
    rw [h]
    rfl
  · intro hu hne hok hopen
    have hf : fetchRates http (readRatesUrl st) = Except.error DbError.fetchFailed := by
      rw [hu]
      simp [fetchRates, hne, hok]
    have hrep : (getReport st http y m cur).1 = Except.error DbError.fetchFailed := by
      unfold getReport
      rw [hopen, if_pos rfl, hf]
    refine ⟨hf, hrep, ?_, ?_⟩
    · unfold getPieChartData
      split
      next e st' heq =>
        have h1 := congrArg Prod.fst heq
        simp only at h1
        rw [hrep] at h1
        simp only [Except.error.injEq] at h1
        simp [h1]
      next report st' heq =>
        have h1 := congrArg Prod.fst heq
        simp only at h1
        rw [hrep] at h1
        exact absurd h1 (by simp)
    · unfold getBarChartData
      rw [hopen, if_pos rfl, hf]

/-- C4 witness: a configured bad URL with a 404 response makes `getReport`
fail with the fetch error, and an unconfigured URL resolves the default
table. -/
theorem rates_resolution_witness :
    (readRatesUrl { isOpen := true, costs := [], settings := [], nextId := 1 } = none →
      fetchRates http404
        (readRatesUrl { isOpen := true, costs := [], settings := [], nextId := 1 }) =
        Except.ok defaultRates) ∧
    (getReport
      { isOpen := true, costs := [],
        settings := [("ratesUrl", "https://bad.example/missing.json")],
        nextId := 1 } http404 2025 5 "USD").1 = Except.error DbError.fetchFailed := by
  refine ⟨?_, ?_⟩
  · exact (rates_resolution
      { isOpen := true, costs := [], settings := [], nextId := 1 }
      http404 2025 5 "USD" "u").1
  · exact ((rates_resolution
      { isOpen := true, costs := [],
        settings := [("ratesUrl", "https://bad.example/missing.json")],
        nextId := 1 } http404 2025 5 "USD" "https://bad.example/missing.json").2
      rfl (by decide) rfl rfl).2.1

/-! ## Bar-chart bucketing lemmas -/

theorem getD_set_lt {α : Type} (l : List α) (i : Nat) (v d : α)
    (h : i < l.length) : (l.set i v).getD i d = v := by
  simp [List.getD, List.getElem?_set_self, h]

theorem getD_set_ne {α : Type} (l : List α) (i j : Nat) (v d : α)
    (h : i ≠ j) : (l.set i v).getD j d = l.getD j d := by
  simp [List.getD, List.getElem?_set_ne h]

theorem getD_replicate_nil (n i : Nat) :
    (List.replicate n ([] : List RawItem)).getD i [] = [] := by
  rcases lt_or_ge i n with h | h
  · simp [List.getD, List.getElem?_replicate, h]
  · rw [List.getD_eq_default]
    simpa using h

theorem barStep_length (year : Int) (acc : List (List RawItem))
    (r : CostRecord) : (barStep year acc r).length = acc.length := by
  unfold barStep
  split
  · simp
  · rfl

theorem barStep_in (year : Int) (acc : List (List RawItem)) (r : CostRecord)
    (h1 : r.year = year) (h2 : 1 ≤ r.month) (h3 : r.month ≤ 12) :
    barStep year acc r =
      acc.set (r.month - 1).toNat
        ((acc.getD (r.month - 1).toNat []) ++
          [{ sum := r.sum, currency := r.currency }]) := by
  unfold barStep
  split
  · rfl
  · next hcond => exact absurd (by simp [h1, h2, h3]) hcond

theorem barStep_out (year : Int) (acc : List (List RawItem)) (r : CostRecord)
    (h : ¬(r.year = year ∧ 1 ≤ r.month ∧ r.month ≤ 12)) :
    barStep year acc r = acc := by
  unfold barStep
  split
  · next hcond =>
      simp only [Bool.and_eq_true, beq_iff_eq, decide_eq_true_eq] at hcond
      exact absurd ⟨hcond.1.1, hcond.1.2, hcond.2⟩ h
  · rfl

/-- Running the cursor loop from any 12-bucket accumulator: bucket `i`
collects exactly the records of year `year` and month `i + 1`, in scan
order, appended to what the accumulator already held. -/
theorem foldl_barStep_getD (year : Int) (i : Nat) (hi : i < 12) :
    ∀ (l : List CostRecord) (acc : List (List RawItem)), acc.length = 12 →
      (l.foldl (barStep year) acc).getD i [] =
        acc.getD i [] ++
          (l.filter (fun r => r.year == year && r.month == (i : Int) + 1)).map
            (fun r => { sum := r.sum, currency := r.currency : RawItem })
  | [], acc, _ => by simp
  | r :: l, acc, hlen => by
      rw [List.foldl_cons, List.filter_cons]
      by_cases hin : r.year = year ∧ 1 ≤ r.month ∧ r.month ≤ 12
      · obtain ⟨h1, h2, h3⟩ := hin
        have hset := barStep_in year acc r h1 h2 h3
        have hlen' : (barStep year acc r).length = 12 := by
          rw [barStep_length]; exact hlen
        by_cases hm : r.month = (i : Int) + 1
        · have hidx : (r.month - 1).toNat = i := by omega
          rw [foldl_barStep_getD year i hi l _ hlen']
          rw [hset, hidx, getD_set_lt _ _ _ _ (by rw [hlen]; exact hi)]
          rw [if_pos (by simp [h1, hm])]
          simp
        · have hidx : (r.month - 1).toNat ≠ i := by omega
          rw [foldl_barStep_getD year i hi l _ hlen']
          rw [hset, getD_set_ne _ _ _ _ _ hidx]
          rw [if_neg (by simp [hm])]
      · have hset := barStep_out year acc r hin
        rw [hset, foldl_barStep_getD year i hi l acc hlen]
        rw [if_neg ?_]
        simp only [Bool.and_eq_true, beq_iff_eq, not_and]
        intro hy hm
        exact absurd ⟨hy, by omega, by omega⟩ hin

/-- Bucket `i` of the scan holds exactly the matching records of month
`i + 1`. -/
theorem barBuckets_getD (costs : List CostRecord) (year : Int) (i : Nat)
    (hi : i < 12) :
    (barBuckets costs year).getD i [] =
      (costs.filter (fun r => r.year == year && r.month == (i : Int) + 1)).map
        (fun r => { sum := r.sum, currency := r.currency : RawItem }) := by
  unfold barBuckets
  rw [foldl_barStep_getD year i hi costs _ (by simp)]
  rw [getD_replicate_nil]
  rfl

/-- Records with out-of-range months never influence the buckets. -/
theorem foldl_barStep_filter (year : Int) :
    ∀ (l : List CostRecord) (acc : List (List RawItem)),
      (l.filter inMonthRange).foldl (barStep year) acc =
        l.foldl (barStep year) acc
  | [], _ => rfl
  | r :: l, acc => by
      rw [List.filter_cons]
      by_cases hin : 1 ≤ r.month ∧ r.month ≤ 12
      · rw [if_pos (by simp [inMonthRange, hin.1, hin.2])]
        rw [List.foldl_cons, List.foldl_cons]
        exact foldl_barStep_filter year l _
      · rw [if_neg (by simpa [inMonthRange] using hin)]
        rw [List.foldl_cons, barStep_out year acc r (by tauto)]
        exact foldl_barStep_filter year l acc

/-- How a successful `getBarChartData` decomposes. -/
theorem getBarChartData_ok (st : DbState) (http : Http) (year : Int)
    (cur : String) (rates : RatesTable) (ho : st.isOpen = true)
    (hr : fetchRates http (readRatesUrl st) = Except.ok rates) :
    getBarChartData st http year cur =
      (Except.ok ((List.range 12).map (fun i =>
        { month := (i : Int) + 1,
          total := jsToFixed2 (jsSum (((barBuckets st.costs year).getD i []).map
            (fun it => convert (JsNum.num it.sum) it.currency cur rates))) })),
       st) := by
  unfold getBarChartData
  rw [ho, if_pos rfl, hr]
  simp only [jsSum, List.foldl_map]

/-- C5: a successful `getBarChartData` has exactly 12 entries with months
1..12 in order; a month with no matching record totals 0; and records
whose month lies outside [1,12] are silently excluded (dropping them from
the store changes nothing). -/
theorem getBarChartData_twelve_months (st : DbState) (http : Http)
    (year : Int) (cur : String) (data : List BarEntry)
    (h : (getBarChartData st http year cur).1 = Except.ok data) :
    data.length = 12 ∧
    (∀ i (hi : i < data.length), (data.get ⟨i, hi⟩).month = (i : Int) + 1) ∧
    (∀ i (hi : i < data.length),
      (∀ r ∈ st.costs, ¬(r.year = year ∧ r.month = (i : Int) + 1)) →
      (data.get ⟨i, hi⟩).total = JsNum.num 0) ∧
    (getBarChartData { st with costs := st.costs.filter inMonthRange }
        http year cur).1 =
      Except.ok data := by
  have ho : st.isOpen = true := by
    by_contra hno
    rw [Bool.not_eq_true] at hno
    unfold getBarChartData at h
    rw [hno] at h
    simp at h
  obtain ⟨rates, hr⟩ : ∃ rates, fetchRates http (readRatesUrl st) =
      Except.ok rates := by
    cases hfr : fetchRates http (readRatesUrl st) with
    | ok r => exact ⟨r, rfl⟩
    | error e =>
        unfold getBarChartData at h
        rw [ho, if_pos rfl, hfr] at h
        simp at h
  rw [getBarChartData_ok st http year cur rates ho hr] at h
  simp only [Except.ok.injEq] at h
  subst h
  refine ⟨by simp, ?_, ?_, ?_⟩
  · intro i hi
    simp
  · intro i hi hempty
    have hi12 : i < 12 := by simpa using hi
    simp only [List.get_eq_getElem, List.getElem_map, List.getElem_range]
    have hnil : st.costs.filter
        (fun r => r.year == year && r.month == (i : Int) + 1) = [] := by
      rw [List.filter_eq_nil_iff]
      intro r hr'
      simp only [Bool.and_eq_true, beq_iff_eq, not_and]
      intro hy hm
      exact absurd ⟨hy, hm⟩ (hempty r hr')
    rw [barBuckets_getD _ _ _ hi12, hnil]
    simp [jsSum, jsToFixed2, round2]
  · rw [getBarChartData_ok { st with costs := st.costs.filter inMonthRange }
      http year cur rates ho hr]
    have hb : barBuckets (st.costs.filter inMonthRange) year =
        barBuckets st.costs year := by
      unfold barBuckets
      exact foldl_barStep_filter year st.costs _
    simp only [hb]

/-- C5 witness: the empty open store yields the twelve all-zero bars. -/
theorem getBarChartData_twelve_months_witness :
    (getBarChartData emptyOpenState httpUnused 2025 "USD").1 =
      Except.ok zeroBarData ∧ zeroBarData.length = 12 := by
  have h : (getBarChartData emptyOpenState httpUnused 2025 "USD").1 =
      Except.ok zeroBarData := by
    rw [getBarChartData_ok emptyOpenState httpUnused 2025 "USD" defaultRates
      rfl rfl]
    simp only [zeroBarData]
    congr 1
    apply List.map_congr_left
    intro i _
    have : (barBuckets emptyOpenState.costs 2025).getD i [] = [] := by
      unfold emptyOpenState barBuckets
      simp only [List.foldl_nil]
      exact getD_replicate_nil 12 i
    rw [this]
    simp [jsSum, jsToFixed2, round2]
  exact ⟨h, (getBarChartData_twelve_months emptyOpenState httpUnused 2025
    "USD" zeroBarData h).1⟩

/-! ## Pie-chart grouping lemmas -/

theorem lookup_map_liftPair (m : List (String × ℚ)) (k : String) :
    List.lookup k (m.map liftPair) = (List.lookup k m).map JsNum.num := by
  induction m with
  | nil => rfl
  | cons p rest ih =>
      obtain ⟨k', v'⟩ := p
      by_cases hk : k = k'
      · simp [liftPair, List.lookup, hk]
      · simp [liftPair, List.lookup, beq_eq_false_iff_ne.mpr hk, ih]

theorem jsGetOr0_map_num (o : Option ℚ) :
    jsGetOr0 (o.map JsNum.num) = JsNum.num (o.getD 0) := by
  cases o with
  | none => rfl
  | some q =>
      by_cases hq : q = 0
      · simp [jsGetOr0, JsNum.truthy, hq]
      · simp [jsGetOr0, JsNum.truthy, hq]

theorem mapSet_upsert (accQ : List (String × ℚ)) (k : String) (q : ℚ) :
    mapSet (accQ.map liftPair) k
        (JsNum.num ((List.lookup k accQ).getD 0 + q)) =
      (upsertAddQ accQ k q).map liftPair := by
  induction accQ with
  | nil => simp [mapSet, upsertAddQ, liftPair, List.lookup]
  | cons p rest ih =>
      obtain ⟨k', v'⟩ := p
      by_cases hk : k' = k
      · subst hk
        simp [mapSet, upsertAddQ, liftPair, List.lookup]
      · have hk' : ¬ k = k' := fun h => hk h.symm
        simp only [List.map_cons, liftPair, mapSet, upsertAddQ, List.lookup,
          if_neg hk, beq_eq_false_iff_ne.mpr hk']
        rw [ih]

theorem pieStep_lift (accQ : List (String × ℚ)) (c : ReportCost) (q : ℚ)
    (hc : c.sum = JsNum.num q) :
    pieStep (accQ.map liftPair) c =
      (upsertAddQ accQ c.category q).map liftPair := by
  unfold pieStep
  rw [lookup_map_liftPair, jsGetOr0_map_num, hc]
  exact mapSet_upsert accQ c.category q

theorem upsertAddQ_keys (m : List (String × ℚ)) (k : String) (v : ℚ) :
    (upsertAddQ m k v).map Prod.fst =
      if k ∈ m.map Prod.fst then m.map Prod.fst
      else m.map Prod.fst ++ [k] := by
  induction m with
  | nil => simp [upsertAddQ]
  | cons p rest ih =>
      obtain ⟨k', v'⟩ := p
      by_cases hk : k' = k
      · subst hk
        simp [upsertAddQ]
      · have hk' : ¬ k = k' := fun h => hk h.symm
        simp only [upsertAddQ, if_neg hk, List.map_cons, List.mem_cons, ih]
        by_cases hmem : k ∈ rest.map Prod.fst
        · simp [hmem, hk']
        · simp [hmem, hk']

theorem upsertAddQ_lookup_self (m : List (String × ℚ)) (k : String) (v : ℚ) :
    List.lookup k (upsertAddQ m k v) =
      some ((List.lookup k m).getD 0 + v) := by
  induction m with
  | nil => simp [upsertAddQ, List.lookup]
  | cons p rest ih =>
      obtain ⟨k', v'⟩ := p
      by_cases hk : k' = k
      · subst hk
        simp [upsertAddQ, List.lookup]
      · have hk' : ¬ k = k' := fun h => hk h.symm
        simp [upsertAddQ, List.lookup, hk, beq_eq_false_iff_ne.mpr hk', ih]

theorem upsertAddQ_lookup_ne (m : List (String × ℚ)) (k j : String) (v : ℚ)
    (h : j ≠ k) :
    List.lookup j (upsertAddQ m k v) = List.lookup j m := by
  induction m with
  | nil => simp [upsertAddQ, List.lookup, beq_eq_false_iff_ne.mpr h]
  | cons p rest ih =>
      obtain ⟨k', v'⟩ := p
      by_cases hk : k' = k
      · subst hk
        simp [upsertAddQ, List.lookup, beq_eq_false_iff_ne.mpr h]
      · by_cases hj : j = k'
        · simp [upsertAddQ, List.lookup, hk, hj]
        · simp [upsertAddQ, List.lookup, hk,
            beq_eq_false_iff_ne.mpr hj, ih]

theorem upsertAddQ_values_sum (m : List (String × ℚ)) (k : String) (v : ℚ) :
    ((upsertAddQ m k v).map Prod.snd).sum = (m.map Prod.snd).sum + v := by
  induction m with
  | nil => simp [upsertAddQ]
  | cons p rest ih =>
      obtain ⟨k', v'⟩ := p
      by_cases hk : k' = k
      · subst hk
        simp [upsertAddQ]
        ring
      · simp [upsertAddQ, hk, ih]
        ring

theorem groupQ_keys :
    ∀ (l : List (String × ℚ)) (acc : List (String × ℚ)),
      (groupQ acc l).map Prod.fst =
        l.foldl (fun ks p => if p.1 ∈ ks then ks else ks ++ [p.1])
          (acc.map Prod.fst)
  | [], acc => rfl
  | (k, v) :: l, acc => by
      rw [List.foldl_cons]
      show (groupQ (upsertAddQ acc k v) l).map Prod.fst = _
      rw [groupQ_keys l (upsertAddQ acc k v), upsertAddQ_keys]

theorem groupQ_lookup :
    ∀ (l : List (String × ℚ)) (acc : List (String × ℚ)) (k : String),
      (List.lookup k (groupQ acc l)).getD 0 =
        (List.lookup k acc).getD 0 +
          ((l.filter (fun p => p.1 == k)).map Prod.snd).sum
  | [], acc, k => by simp [groupQ]
  | (k1, v1) :: l, acc, k => by
      rw [List.filter_cons]
      show (List.lookup k (groupQ (upsertAddQ acc k1 v1) l)).getD 0 = _
      rw [groupQ_lookup l (upsertAddQ acc k1 v1) k]
      by_cases hk : k1 = k
      · subst hk
        rw [upsertAddQ_lookup_self]
        rw [if_pos (by simp)]
        simp only [List.map_cons, List.sum_cons, Option.getD_some]
        ring
      · have hk' : k ≠ k1 := fun h => hk h.symm
        rw [upsertAddQ_lookup_ne _ _ _ _ hk']
        rw [if_neg (by simp [hk])]

theorem groupQ_values_sum :
    ∀ (l : List (String × ℚ)) (acc : List (String × ℚ)),
      ((groupQ acc l).map Prod.snd).sum =
        (acc.map Prod.snd).sum + (l.map Prod.snd).sum
  | [], acc => by simp [groupQ]
  | (k, v) :: l, acc => by
      show ((groupQ (upsertAddQ acc k v) l).map Prod.snd).sum = _
      rw [groupQ_values_sum l (upsertAddQ acc k v), upsertAddQ_values_sum]
      simp only [List.map_cons, List.sum_cons]
      ring

theorem seenStep_nodup :
    ∀ (l : List (String × ℚ)) (ks : List String), ks.Nodup →
      (l.foldl (fun ks p => if p.1 ∈ ks then ks else ks ++ [p.1]) ks).Nodup
  | [], ks, h => h
  | (k, v) :: l, ks, h => by
      rw [List.foldl_cons]
      apply seenStep_nodup l
      by_cases hmem : k ∈ ks
      · simpa [hmem] using h
      · simp only [hmem, if_false]
        simp [List.nodup_append, h, hmem]

theorem groupQ_keys_nodup (l : List (String × ℚ)) :
    ((groupQ [] l).map Prod.fst).Nodup := by
  rw [groupQ_keys]
  exact seenStep_nodup l [] List.nodup_nil

theorem lookup_of_mem_of_nodup :
    ∀ (m : List (String × ℚ)), ((m.map Prod.fst).Nodup) →
      ∀ {k : String} {v : ℚ}, (k, v) ∈ m → List.lookup k m = some v
  | [], _, _, _, hmem => absurd hmem (List.not_mem_nil _)
  | (k', v') :: rest, hnd, k, v, hmem => by
      rcases List.mem_cons.mp hmem with heq | htail
      · rw [Prod.mk.injEq] at heq
        obtain ⟨rfl, rfl⟩ := heq
        simp [List.lookup]
      · have hk : k ≠ k' := by
          rintro rfl
          have : k ∈ rest.map Prod.fst :=
            List.mem_map.mpr ⟨(k, v), htail, rfl⟩
          simp only [List.map_cons, List.nodup_cons] at hnd
          exact hnd.1 this
        simp only [List.lookup, beq_eq_false_iff_ne.mpr hk]
        exact lookup_of_mem_of_nodup rest
          (by simp only [List.map_cons, List.nodup_cons] at hnd; exact hnd.2)
          htail

/-! ## Hundredth-multiples and finite sums -/

theorem isCent_round2 (q : ℚ) : isCent (round2 q) := ⟨round (q * 100), rfl⟩

theorem round2_of_isCent {q : ℚ} (h : isCent q) : round2 q = q := by
  obtain ⟨k, rfl⟩ := h
  unfold round2
  rw [div_mul_cancel₀ (k : ℚ) (by norm_num : (100 : ℚ) ≠ 0)]
  rw [round_intCast]

theorem isCent_zero : isCent 0 := ⟨0, by norm_num⟩

theorem isCent_add {a b : ℚ} (ha : isCent a) (hb : isCent b) :
    isCent (a + b) := by
  obtain ⟨k1, rfl⟩ := ha
  obtain ⟨k2, rfl⟩ := hb
  exact ⟨k1 + k2, by push_cast; ring⟩

theorem isCent_sum :
    ∀ (l : List ℚ), (∀ q ∈ l, isCent q) → isCent l.sum
  | [], _ => by simpa using isCent_zero
  | q :: l, h => by
      rw [List.sum_cons]
      exact isCent_add (h q (by simp))
        (isCent_sum l (fun p hp => h p (by simp [hp])))

theorem foldl_add_num (l : List ℚ) :
    ∀ a : ℚ, (l.map JsNum.num).foldl JsNum.add (JsNum.num a) =
      JsNum.num (a + l.sum) := by
  induction l with
  | nil => intro a; simp
  | cons q l ih =>
      intro a
      rw [List.map_cons, List.foldl_cons]
      show (l.map JsNum.num).foldl JsNum.add (JsNum.num (a + q)) = _
      rw [ih (a + q)]
      rw [List.sum_cons]
      ring_nf

theorem jsSum_map_num (l : List ℚ) :
    jsSum (l.map JsNum.num) = JsNum.num l.sum := by
  unfold jsSum
  rw [foldl_add_num l 0, zero_add]

/-- The pie grouping loop is the exact-rational grouping when every summed
value is finite. -/
theorem pieFold_lift :
    ∀ (costs : List ReportCost) (accQ : List (String × ℚ)),
      (∀ c ∈ costs, ∃ q : ℚ, c.sum = JsNum.num q) →
      costs.foldl pieStep (accQ.map liftPair) =
        (groupQ accQ (costs.map (fun c => (c.category, sumQ c.sum)))).map
          liftPair
  | [], accQ, _ => rfl
  | c :: costs, accQ, h => by
      obtain ⟨q, hq⟩ := h c (by simp)
      rw [List.foldl_cons, pieStep_lift accQ c q hq, List.map_cons]
      show _ = (groupQ (upsertAddQ accQ c.category (sumQ c.sum)) _).map liftPair
      rw [hq]
      show _ = (groupQ (upsertAddQ accQ c.category q) _).map liftPair
      exact pieFold_lift costs (upsertAddQ accQ c.category q)
        (fun c' hc' => h c' (by simp [hc']))

/-- Conversion between two listed, nonzero-from rates is finite exact
arithmetic. -/
theorem convert_num (x : ℚ) (fromCur toCur : String) (rates : RatesTable)
    (qf qt : ℚ) (hf : List.lookup fromCur rates = some qf) (hfne : qf ≠ 0)
    (ht : List.lookup toCur rates = some qt) :
    convert (JsNum.num x) fromCur toCur rates = JsNum.num (x / qf * qt) := by
  unfold convert ratesGet
  rw [hf, ht]
  simp [JsNum.div, JsNum.mul, hfne]

/-- How a successful `getPieChartData` decomposes. -/
theorem getPieChartData_ok (st : DbState) (http : Http) (y m : Int)
    (cur : String) (rates : RatesTable) (ho : st.isOpen = true)
    (hr : fetchRates http (readRatesUrl st) = Except.ok rates) :
    getPieChartData st http y m cur =
      (Except.ok ((pieFold (reportCosts (matchingCosts st y m) cur rates)).map
        (fun p => { name := p.1, value := jsToFixed2 p.2 : PieEntry })), st) := by
  unfold getPieChartData
  rw [getReport_ok st http y m cur rates ho hr]

/-- The core grouping facts about the pie loop on a list of finite,
hundredth-multiple converted sums: group names are the first-seen
categories, each group value is the rounded sum of that category's items,
and the group values add up exactly to the rounded grand total. -/
theorem pieFold_groups (costs : List ReportCost)
    (hfin : ∀ c ∈ costs, ∃ q : ℚ, c.sum = JsNum.num q ∧ isCent q) :
    ((pieFold costs).map
        (fun p => { name := p.1, value := jsToFixed2 p.2 : PieEntry })).map
      PieEntry.name = firstSeen (costs.map ReportCost.category) ∧
    (∀ e ∈ (pieFold costs).map
        (fun p => { name := p.1, value := jsToFixed2 p.2 : PieEntry }),
      e.value = jsToFixed2 (jsSum ((costs.filter
        (fun c => c.category == e.name)).map ReportCost.sum))) ∧
    ∃ s : ℚ,
      jsSum (((pieFold costs).map
        (fun p => { name := p.1, value := jsToFixed2 p.2 : PieEntry })).map
          PieEntry.value) = JsNum.num s ∧
      jsToFixed2 (jsSum (costs.map ReportCost.sum)) = JsNum.num s := by
  set pairs : List (String × ℚ) :=
    costs.map (fun c => (c.category, sumQ c.sum)) with hpairs
  set G : List (String × ℚ) := groupQ [] pairs with hG
  have hlift : pieFold costs = G.map liftPair :=
    pieFold_lift costs []
      (fun c hc => (hfin c hc).imp (fun q hq => hq.1))
  have hsum_num : ∀ c ∈ costs, c.sum = JsNum.num (sumQ c.sum) := by
    intro c hc
    obtain ⟨q, hq, -⟩ := hfin c hc
    rw [hq]
    rfl
  have hcent_pair : ∀ x ∈ pairs.map Prod.snd, isCent x := by
    intro x hx
    rw [hpairs, List.map_map] at hx
    obtain ⟨c, hc, rfl⟩ := List.mem_map.mp hx
    obtain ⟨q, hq, hcq⟩ := hfin c hc
    show isCent (sumQ c.sum)
    rw [hq]
    exact hcq
  have hGmem : ∀ p ∈ G, p.2 =
      ((pairs.filter (fun pr => pr.1 == p.1)).map Prod.snd).sum ∧
      isCent p.2 := by
    intro p hp
    have hp' : (p.1, p.2) ∈ G := by rw [Prod.mk.eta]; exact hp
    have hlk : List.lookup p.1 G = some p.2 :=
      lookup_of_mem_of_nodup G (hG ▸ groupQ_keys_nodup pairs) hp'
    have hval := groupQ_lookup pairs [] p.1
    rw [← hG, hlk] at hval
    simp only [Option.getD_some, List.lookup, Option.getD_none] at hval
    rw [zero_add] at hval
    refine ⟨hval, ?_⟩
    rw [hval]
    apply isCent_sum
    intro x hx
    obtain ⟨pr, hpr, rfl⟩ := List.mem_map.mp hx
    exact hcent_pair _ (List.mem_map_of_mem _ (List.mem_of_mem_filter hpr))
  have hentries : (pieFold costs).map
      (fun p => { name := p.1, value := jsToFixed2 p.2 : PieEntry }) =
      G.map (fun p => { name := p.1, value := JsNum.num p.2 : PieEntry }) := by
    rw [hlift, List.map_map]
    apply List.map_congr_left
    intro p hp
    show ({ name := p.1, value := jsToFixed2 (JsNum.num p.2) } : PieEntry) = _
    have hc := (hGmem p hp).2
    show ({ name := p.1, value := JsNum.num (round2 p.2) } : PieEntry) = _
    rw [round2_of_isCent hc]
  refine ⟨?_, ?_, ?_⟩
  · rw [hentries, List.map_map]
    have hcomp : (PieEntry.name ∘ fun p : String × ℚ =>
        ({ name := p.1, value := JsNum.num p.2 } : PieEntry)) = Prod.fst :=
      funext fun p => rfl
    have hcat : pairs.map Prod.fst = costs.map ReportCost.category := by
      rw [hpairs, List.map_map]
      exact List.map_congr_left (fun c _ => rfl)
    have h2 : firstSeen (pairs.map Prod.fst) =
        pairs.foldl (fun ks p => if p.1 ∈ ks then ks else ks ++ [p.1]) [] := by
      unfold firstSeen
      rw [List.foldl_map]
    rw [hcomp, hG, groupQ_keys pairs [], ← hcat, h2]
    rfl
  · intro e he
    rw [hentries] at he
    obtain ⟨p, hp, rfl⟩ := List.mem_map.mp he
    obtain ⟨hval, hcent⟩ := hGmem p hp
    show JsNum.num p.2 = _
    have hfmap : (costs.filter (fun c => c.category == p.1)).map
        ReportCost.sum =
        ((costs.filter (fun c => c.category == p.1)).map
          (fun c => sumQ c.sum)).map JsNum.num := by
      rw [List.map_map]
      exact List.map_congr_left
        (fun c hc => hsum_num c (List.mem_of_mem_filter hc))
    have hfilter : pairs.filter (fun pr => pr.1 == p.1) =
        (costs.filter (fun c => c.category == p.1)).map
          (fun c => (c.category, sumQ c.sum)) := by
      rw [hpairs, List.filter_map]
      exact congrArg _ (List.filter_congr (fun c _ => rfl))
    have hsig : p.2 = ((costs.filter (fun c => c.category == p.1)).map
        (fun c => sumQ c.sum)).sum := by
      rw [hval, hfilter, List.map_map]
      rfl
    rw [hfmap, jsSum_map_num, ← hsig]
    show _ = JsNum.num (round2 p.2)
    rw [round2_of_isCent hcent]
  · refine ⟨(pairs.map Prod.snd).sum, ?_, ?_⟩
    · rw [hentries, List.map_map]
      have hcomp : (PieEntry.value ∘ fun p : String × ℚ =>
          ({ name := p.1, value := JsNum.num p.2 } : PieEntry)) =
          (JsNum.num ∘ Prod.snd) := funext fun p => rfl
      rw [hcomp, ← List.map_map, jsSum_map_num]
      congr 1
      rw [hG, groupQ_values_sum pairs []]
      simp
    · have hmap : costs.map ReportCost.sum =
          (pairs.map Prod.snd).map JsNum.num := by
        rw [hpairs, List.map_map, List.map_map]
        exact List.map_congr_left (fun c hc => hsum_num c hc)
      rw [hmap, jsSum_map_num]
      show JsNum.num (round2 (pairs.map Prod.snd).sum) = _
      rw [round2_of_isCent (isCent_sum _ hcent_pair)]

/-- C6: a successful `getPieChartData` has one entry per distinct category
of the matching records (none for absent categories), in first-seen order;
each value is that category's converted, per-item-rounded sums added and
rounded to 2 decimals; and the values add up to the report's
`total.total`, exactly — in particular within 0.01 per category. Rates
must cover the target currency and, with a nonzero rate, the currency of
every matching record (otherwise the arithmetic degenerates to NaN). -/
theorem getPieChartData_groups (st : DbState) (http : Http) (y m : Int)
    (cur : String) (rates : RatesTable) (ho : st.isOpen = true)
    (hr : fetchRates http (readRatesUrl st) = Except.ok rates)
    (hcov : ∀ r ∈ matchingCosts st y m,
      ∃ q : ℚ, List.lookup r.currency rates = some q ∧ q ≠ 0)
    (htgt : ∃ q : ℚ, List.lookup cur rates = some q) :
    ∃ entries report,
      (getPieChartData st http y m cur).1 = Except.ok entries ∧
      (getReport st http y m cur).1 = Except.ok report ∧
      entries.map PieEntry.name =
        firstSeen ((matchingCosts st y m).map CostRecord.category) ∧
      (∀ e ∈ entries, e.value =
        jsToFixed2 (jsSum ((report.costs.filter
          (fun c => c.category == e.name)).map ReportCost.sum))) ∧
      ∃ ps t : ℚ,
        jsSum (entries.map PieEntry.value) = JsNum.num ps ∧
        report.total.total = JsNum.num t ∧
        |ps - t| ≤ (entries.length : ℚ) * (1 / 100) := by
  obtain ⟨qt, hqt⟩ := htgt
  have hfin : ∀ c ∈ reportCosts (matchingCosts st y m) cur rates,
      ∃ q : ℚ, c.sum = JsNum.num q ∧ isCent q := by
    intro c hc
    unfold reportCosts at hc
    obtain ⟨r, hrmem, rfl⟩ := List.mem_map.mp hc
    obtain ⟨qf, hqf, hqfne⟩ := hcov r hrmem
    refine ⟨round2 (r.sum / qf * qt), ?_, isCent_round2 _⟩
    show jsToFixed2 (convert (JsNum.num r.sum) r.currency cur rates) = _
    rw [convert_num r.sum r.currency cur rates qf qt hqf hqfne hqt]
    rfl
  obtain ⟨hnames, hvalues, s, hps, ht⟩ :=
    pieFold_groups (reportCosts (matchingCosts st y m) cur rates) hfin
  refine ⟨(pieFold (reportCosts (matchingCosts st y m) cur rates)).map
      (fun p => { name := p.1, value := jsToFixed2 p.2 }),
    { year := y, month := m,
      costs := reportCosts (matchingCosts st y m) cur rates,
      total :=
        { currency := cur,
          total := jsToFixed2 (jsSum ((reportCosts (matchingCosts st y m)
            cur rates).map ReportCost.sum)) } }, ?_, ?_, ?_, ?_, ?_⟩
  · rw [getPieChartData_ok st http y m cur rates ho hr]
  · rw [getReport_ok st http y m cur rates ho hr]
  · rw [hnames]
    congr 1
    unfold reportCosts
    rw [List.map_map]
    exact List.map_congr_left (fun r _ => rfl)
  · exact hvalues
  · exact ⟨s, s, hps, ht, by simp⟩

/-- C6 witness: the two-record scenario store, where both groups collapse
into the single category FOOD. -/
theorem getPieChartData_groups_witness :
    ∃ entries report,
      (getPieChartData (scenarioState 2025 5) httpUnused 2025 5 "USD").1 =
        Except.ok entries ∧
      (getReport (scenarioState 2025 5) httpUnused 2025 5 "USD").1 =
        Except.ok report ∧
      entries.map PieEntry.name =
        firstSeen ((matchingCosts (scenarioState 2025 5) 2025 5).map
          CostRecord.category) ∧
      (∀ e ∈ entries, e.value =
        jsToFixed2 (jsSum ((report.costs.filter
          (fun c => c.category == e.name)).map ReportCost.sum))) ∧
      ∃ ps t : ℚ,
        jsSum (entries.map PieEntry.value) = JsNum.num ps ∧
        report.total.total = JsNum.num t ∧
        |ps - t| ≤ (entries.length : ℚ) * (1 / 100) :=
  getPieChartData_groups (scenarioState 2025 5) httpUnused 2025 5 "USD"
    defaultRates rfl rfl
    (by
      intro r hrm
      simp only [matchingCosts, scenarioState, List.filter_cons,
        List.filter_nil, beq_self_eq_true, Bool.and_self, if_true,
        List.mem_cons, List.not_mem_nil, or_false] at hrm
      rcases hrm with rfl | rfl
      · exact ⟨1, rfl, one_ne_zero⟩
      · exact ⟨6/10, rfl, by norm_num⟩)
    ⟨1, rfl⟩

/-- C7: with the store not open, all five operations fail with the
not-open error and leave the state (costs and settings alike) unchanged. -/
theorem ops_fail_when_not_open (st : DbState) (http : Http) (y m : Int)
    (cur url : String) (now : DateParts) (cost : CostInput)
    (h : st.isOpen = false) :
    addCost st now cost = (Except.error DbError.notOpen, st) ∧
    setRatesUrl st url = (Except.error DbError.notOpen, st) ∧
    getReport st http y m cur = (Except.error DbError.notOpen, st) ∧
    getPieChartData st http y m cur = (Except.error DbError.notOpen, st) ∧
    getBarChartData st http y cur = (Except.error DbError.notOpen, st) := by
  refine ⟨?_, ?_, ?_, ?_, ?_⟩
  · simp [addCost, h]
  · simp [setRatesUrl, h]
  · simp [getReport, h]
  · simp [getPieChartData, getReport, h]
  · simp [getBarChartData, h]

/-- C7 witness: a concrete closed store rejects every operation. -/
theorem ops_fail_when_not_open_witness :
    addCost { isOpen := false, costs := [], settings := [], nextId := 1 }
        { year := 2025, month := 5, day := 3 }
        { sum := 10, currency := "USD", category := "FOOD", description := "d" } =
      (Except.error DbError.notOpen,
       { isOpen := false, costs := [], settings := [], nextId := 1 }) ∧
    setRatesUrl { isOpen := false, costs := [], settings := [], nextId := 1 } "u" =
      (Except.error DbError.notOpen,
       { isOpen := false, costs := [], settings := [], nextId := 1 }) ∧
    getReport { isOpen := false, costs := [], settings := [], nextId := 1 }
        httpUnused 2025 5 "USD" =
      (Except.error DbError.notOpen,
       { isOpen := false, costs := [], settings := [], nextId := 1 }) ∧
    getPieChartData { isOpen := false, costs := [], settings := [], nextId := 1 }
        httpUnused 2025 5 "USD" =
      (Except.error DbError.notOpen,
       { isOpen := false, costs := [], settings := [], nextId := 1 }) ∧
    getBarChartData { isOpen := false, costs := [], settings := [], nextId := 1 }
        httpUnused 2025 "USD" =
      (Except.error DbError.notOpen,
       { isOpen := false, costs := [], settings := [], nextId := 1 }) :=
  ops_fail_when_not_open _ httpUnused 2025 5 "USD" "u"
    { year := 2025, month := 5, day := 3 }
    { sum := 10, currency := "USD", category := "FOOD", description := "d" }
    rfl

/-- C9: the three read operations leave the whole state unchanged whether
they succeed or fail; `addCost` never touches `settings`; `setRatesUrl`
never touches `costs`. -/
theorem frame_conditions (st : DbState) (http : Http) (y m : Int)
    (cur url : String) (now : DateParts) (cost : CostInput) :
    (getReport st http y m cur).2 = st ∧
    (getPieChartData st http y m cur).2 = st ∧
    (getBarChartData st http y cur).2 = st ∧
    (addCost st now cost).2.settings = st.settings ∧
    (setRatesUrl st url).2.costs = st.costs := by
  have hrep : (getReport st http y m cur).2 = st := by
    unfold getReport
    split
    · split <;> rfl
    · rfl
  refine ⟨hrep, ?_, ?_, ?_, ?_⟩
  · unfold getPieChartData
    split
    next e st' heq =>
      have h2 := congrArg Prod.snd heq
      simp only at h2
      exact h2 ▸ hrep
    next report st' heq =>
      have h2 := congrArg Prod.snd heq
      simp only at h2
      exact h2 ▸ hrep
  · unfold getBarChartData
    split
    · split <;> rfl
    · rfl
  · unfold addCost
    split <;> rfl
  · unfold setRatesUrl
    split <;> rfl

/-- C10: when the store is open, `addCost` resolves with a value whose
complete shape is the four input fields (the sum passed through unmodified)
plus `Date: { day }`, while the persisted record additionally carries the
auto-assigned id and the stamped year and month. -/
theorem addCost_result_shape (st : DbState) (now : DateParts)
    (cost : CostInput) (h : st.isOpen = true) :
    addCost st now cost =
      (Except.ok
        { sum := cost.sum, currency := cost.currency, category := cost.category,
          description := cost.description, dateDay := now.day },
       { st with
          costs := st.costs ++
            [{ id := st.nextId, sum := cost.sum, currency := cost.currency,
               category := cost.category, description := cost.description,
               year := now.year, month := now.month, day := now.day }],
          nextId := st.nextId + 1 }) := by
  simp [addCost, h]

/-- C10 witness: the shape theorem at a concrete open store. -/
theorem addCost_result_shape_witness :
    addCost { isOpen := true, costs := [], settings := [], nextId := 1 }
        { year := 2025, month := 5, day := 3 }
        { sum := 12, currency := "ILS", category := "FOOD", description := "d" } =
      (Except.ok
        { sum := 12, currency := "ILS", category := "FOOD",
          description := "d", dateDay := 3 },
       { isOpen := true,
         costs := [{ id := 1, sum := 12, currency := "ILS", category := "FOOD",
                     description := "d", year := 2025, month := 5, day := 3 }],
         settings := [], nextId := 2 }) :=
  addCost_result_shape _ _ _ rfl

end CostManager
